import Mathlib

/-!
Verification of the treeherder autoclassify core: a shallow embedding of
src/treeherder/autoclassify/matchers.py and
src/treeherder/autoclassify/management/commands/autoclassify.py, together with
theorems settling the specification claims about the matching and scoring
pipeline.

Conventions of the embedding:
- Django model rows become Lean structures; nullable columns become Option.
- Scores (DecimalField / float ratios) become Rat, so that the arithmetic
  8 * score / 10 and the 0.7 / 0.9 thresholds are exact.
- Django querysets become List filters; .order_by(...).first() becomes a fold
  that keeps the first element attaining the greatest sort key.
- The ElasticSearch backend and the database are out of scope of the source
  package and are passed in as explicit function / list parameters.
-/

/-! ## Data model -/

/-- One reported failure line of a job, as used by the matchers: the fields
read by matchers.py and autoclassify.py.  Nullable columns are Options. -/
structure FailureLineData where
  id : Nat
  job_guid : String
  action : String
  test : Option String
  subtest : Option String
  status : String
  expected : String
  message : Option String
  signature : Option String
  best_classification : Option Nat
  best_is_verified : Bool
deriving DecidableEq

/-- A historical FailureMatch row joined with its failure_line, as returned by
FailureMatch.objects in matchers.py. -/
structure FailureMatchRow where
  failure_line : FailureLineData
  classified_failure : Nat
  score : Rat
deriving DecidableEq

/-- The Match namedtuple of matchers.py: (failure_line, classified_failure,
score).  The classified failure is represented by its id. -/
structure Match where
  failure_line : FailureLineData
  classified_failure : Nat
  score : Rat
deriving DecidableEq

/-! ## Shared queryset helpers -/

/-- matchers.py, ignored_line: Q(failure_line__best_classification=None) AND
Q(failure_line__best_is_verified=True). -/
def ignored_line (fl : FailureLineData) : Bool :=
  fl.best_classification.isNone && fl.best_is_verified

/-- .order_by(keys descending).first() over a list of rows: the fold keeps the
accumulator unless the next row is strictly better, so the first row attaining
the greatest key wins. -/
def firstMaxBy {α : Type} (better : α → α → Bool) (l : List α) : Option α :=
  l.foldl (fun acc x =>
    match acc with
    | none => some x
    | some b => if better b x then some x else some b) none

/-! ## PreciseTestMatcher (matchers.py lines 53-79) -/

/-- The equality filter of PreciseTestMatcher: identical action, test, subtest,
status, expected, message (None compares equal to None, the Django
field=None / IS NULL semantics). -/
def precise_fields_match (l fl : FailureLineData) : Bool :=
  decide (fl.action = "test_result") && decide (fl.test = l.test) &&
  decide (fl.subtest = l.subtest) && decide (fl.status = l.status) &&
  decide (fl.expected = l.expected) && decide (fl.message = l.message)

/-- FailureMatch.objects.filter(identical fields).exclude(ignored_line OR
same job_guid), for one failure line. -/
def precise_matching_failures (db : List FailureMatchRow) (l : FailureLineData) :
    List FailureMatchRow :=
  (db.filter (fun r => precise_fields_match l r.failure_line)).filter
    (fun r => !(ignored_line r.failure_line || decide (r.failure_line.job_guid = l.job_guid)))

/-- The sort key of .order_by("-score", "-classified_failure__id"): row x is
strictly better than row b. -/
def precise_better (b x : FailureMatchRow) : Bool :=
  decide (b.score < x.score) ||
  (decide (b.score = x.score) && decide (b.classified_failure < x.classified_failure))

/-- The body of PreciseTestMatcher.__call__ for a single failure line: at most
one Match, carrying the best historical score through unchanged. -/
def precise_line_matches (db : List FailureMatchRow) (l : FailureLineData) : List Match :=
  if l.action = "test_result" then
    match firstMaxBy precise_better (precise_matching_failures db l) with
    | some best => [Match.mk l best.classified_failure best.score]
    | none => []
  else []

/-- PreciseTestMatcher.__call__: iterate the lines, appending the per-line
results to rv in order. -/
def preciseTestMatcherCall (db : List FailureMatchRow) (failure_lines : List FailureLineData) :
    List Match :=
  failure_lines.flatMap (precise_line_matches db)

/-! ## CrashSignatureMatcher (matchers.py lines 134-160) -/

/-- The filter of CrashSignatureMatcher: action crash and identical signature. -/
def crash_fields_match (l fl : FailureLineData) : Bool :=
  decide (fl.action = "crash") && decide (fl.signature = l.signature)

/-- FailureMatch.objects.filter(crash, identical signature).exclude(ignored_line
OR same job_guid), for one failure line. -/
def crash_matching_failures (db : List FailureMatchRow) (l : FailureLineData) :
    List FailureMatchRow :=
  (db.filter (fun r => crash_fields_match l r.failure_line)).filter
    (fun r => !(ignored_line r.failure_line || decide (r.failure_line.job_guid = l.job_guid)))

/-- The sort key of .order_by(Eq(test, current test).desc(), "-score",
"-classified_failure__id"); Eq is the MySQL NULL-safe equality, so the Option
equality on test is the three-valued-safe comparison. -/
def crash_better (l : FailureLineData) (b x : FailureMatchRow) : Bool :=
  let be := decide (b.failure_line.test = l.test)
  let xe := decide (x.failure_line.test = l.test)
  (!be && xe) ||
  (decide (be = xe) &&
    (decide (b.score < x.score) ||
     (decide (b.score = x.score) && decide (b.classified_failure < x.classified_failure))))

/-- The body of CrashSignatureMatcher.__call__ for a single failure line,
including the made-up 8 * score / 10 factor when the tests differ. -/
def crash_line_matches (db : List FailureMatchRow) (l : FailureLineData) : List Match :=
  if l.action ≠ "crash" ∨ l.signature.isNone then []
  else
    match firstMaxBy (crash_better l) (crash_matching_failures db l) with
    | some best =>
        [Match.mk l best.classified_failure
          (if l.test ≠ best.failure_line.test then 8 * best.score / 10 else best.score)]
    | none => []

/-- CrashSignatureMatcher.__call__. -/
def crashSignatureMatcherCall (db : List FailureMatchRow) (failure_lines : List FailureLineData) :
    List Match :=
  failure_lines.flatMap (crash_line_matches db)

/-! ## MatchScorer (matchers.py lines 163-187) and the difflib SequenceMatcher
algorithm it wraps.

The scorer is built on the Python standard library SequenceMatcher (an
external collaborator of this package); the algorithm below is its faithful
embedding: b2j chaining with junk and autojunk purging, find_longest_match
with the four junk-aware extension passes, the matching-blocks recursion, and
the ratio / quick_ratio computations.  Strings are compared as lists of
characters.  Recursions that Python drives by mutation are given explicit
fuel; the stated fuel bounds are sufficient for every input, and every
concrete evaluation below happens under those bounds. -/

/-- The junk lambda passed to SequenceMatcher in MatchScorer.__init__:
lambda x: x == " ".  It holds for the space character only. -/
def matchScorerIsJunk (c : Char) : Bool := c == ' '

/-- All positions of character c in b, ascending (the b2j index lists). -/
def indicesOf (b : List Char) (c : Char) : List Nat :=
  (List.range b.length).filter (fun i => b[i]? == some c)

/-- Number of occurrences of c in b (fullbcount entry). -/
def countOf (b : List Char) (c : Char) : Nat :=
  (b.filter (fun x => x == c)).length

/-- SequenceMatcher.__chain_b: positions of each element of b, with junk
elements purged, and (autojunk, for b of length at least 200) popular
elements purged. -/
def chain_b2j (isjunk : Char → Bool) (b : List Char) : Char → List Nat := fun c =>
  if isjunk c then []
  else if 200 ≤ b.length ∧ b.length / 100 + 1 < countOf b c then []
  else indicesOf b c

/-- The inner j-loop of find_longest_match for one row i: walk the b2j list of
a[i], skipping j < blo, stopping at j ≥ bhi, extending runs recorded in the
previous row map j2len into newj2len, and tracking the best block. -/
def flmRow (j2len : Nat → Nat) (blo bhi i : Nat) :
    List Nat → (Nat → Nat) → Nat × Nat × Nat → ((Nat → Nat) × (Nat × Nat × Nat))
  | [], newj2len, best => (newj2len, best)
  | j :: js, newj2len, best =>
    if j < blo then flmRow j2len blo bhi i js newj2len best
    else if bhi ≤ j then (newj2len, best)
    else
      let k := (if j = 0 then 0 else j2len (j - 1)) + 1
      let newj2len1 := fun j0 => if j0 = j then k else newj2len j0
      let best1 := if best.2.2 < k then (i + 1 - k, j + 1 - k, k) else best
      flmRow j2len blo bhi i js newj2len1 best1

/-- The outer i-loop of find_longest_match over the row indices. -/
def flmRows (b2j : Char → List Nat) (a : List Char) (blo bhi : Nat) :
    List Nat → (Nat → Nat) → Nat × Nat × Nat → Nat × Nat × Nat
  | [], _, best => best
  | i :: is, j2len, best =>
    match a[i]? with
    | none => flmRows b2j a blo bhi is (fun _ => 0) best
    | some c =>
      let r := flmRow j2len blo bhi i (b2j c) (fun _ => 0) best
      flmRows b2j a blo bhi is r.1 r.2

/-- One extension pass towards lower indices: while alo < besti, blo < bestj,
cond holds of b[bestj-1] and a[besti-1] = b[bestj-1], grow the block to the
left.  Fuel besti suffices since besti decreases each step. -/
def extendLo (cond : Char → Bool) (a b : List Char) (alo blo : Nat) :
    Nat → Nat → Nat → Nat → Nat × Nat × Nat
  | 0, besti, bestj, bestsize => (besti, bestj, bestsize)
  | fuel + 1, besti, bestj, bestsize =>
    if alo < besti ∧ blo < bestj then
      match a[besti - 1]?, b[bestj - 1]? with
      | some ca, some cb =>
        if cond cb && ca == cb then
          extendLo cond a b alo blo fuel (besti - 1) (bestj - 1) (bestsize + 1)
        else (besti, bestj, bestsize)
      | _, _ => (besti, bestj, bestsize)
    else (besti, bestj, bestsize)

/-- One extension pass towards higher indices: while besti+bestsize < ahi,
bestj+bestsize < bhi, cond holds of b[bestj+bestsize] and the characters
agree, grow the block to the right.  Fuel ahi suffices since bestsize grows
towards ahi. -/
def extendHi (cond : Char → Bool) (a b : List Char) (ahi bhi besti bestj : Nat) :
    Nat → Nat → Nat
  | 0, bestsize => bestsize
  | fuel + 1, bestsize =>
    if besti + bestsize < ahi ∧ bestj + bestsize < bhi then
      match a[besti + bestsize]?, b[bestj + bestsize]? with
      | some ca, some cb =>
        if cond cb && ca == cb then extendHi cond a b ahi bhi besti bestj fuel (bestsize + 1)
        else bestsize
      | _, _ => bestsize
    else bestsize

/-- SequenceMatcher.find_longest_match on the slice [alo, ahi) of a and
[blo, bhi) of b: the row loop, then the non-junk extension passes, then the
junk extension passes. -/
def find_longest_match (isjunk : Char → Bool) (b2j : Char → List Nat) (a b : List Char)
    (alo ahi blo bhi : Nat) : Nat × Nat × Nat :=
  let best0 := flmRows b2j a blo bhi (List.range' alo (ahi - alo)) (fun _ => 0) (alo, blo, 0)
  let lo1 := extendLo (fun c => !isjunk c) a b alo blo best0.1 best0.1 best0.2.1 best0.2.2
  let k2 := extendHi (fun c => !isjunk c) a b ahi bhi lo1.1 lo1.2.1 ahi lo1.2.2
  let lo3 := extendLo isjunk a b alo blo lo1.1 lo1.1 lo1.2.1 k2
  let k4 := extendHi isjunk a b ahi bhi lo3.1 lo3.2.1 ahi lo3.2.2
  (lo3.1, lo3.2.1, k4)

/-- Total size of the matching blocks of get_matching_blocks on a slice: the
longest match splits the problem in two.  Fuel a.length + b.length + 1
suffices since each split strictly shrinks both ranges. -/
def matching_blocks_size (isjunk : Char → Bool) (b2j : Char → List Nat) (a b : List Char) :
    Nat → Nat → Nat → Nat → Nat → Nat
  | 0, _, _, _, _ => 0
  | fuel + 1, alo, ahi, blo, bhi =>
    let m := find_longest_match isjunk b2j a b alo ahi blo bhi
    if m.2.2 = 0 then 0
    else matching_blocks_size isjunk b2j a b fuel alo m.1 blo m.2.1 + m.2.2 +
         matching_blocks_size isjunk b2j a b fuel (m.1 + m.2.2) ahi (m.2.1 + m.2.2) bhi

/-- difflib._calculate_ratio: 2 * matches / length, and 1.0 when both
sequences are empty. -/
def calculate_ratio (matched length : Nat) : Rat :=
  if length ≠ 0 then 2 * (matched : Rat) / (length : Rat) else 1

/-- SequenceMatcher.ratio() with a as seq1 and b as seq2: twice the total
matched characters over the total length. -/
def difflib_ratio (isjunk : Char → Bool) (a b : List Char) : Rat :=
  calculate_ratio
    (matching_blocks_size isjunk (chain_b2j isjunk b) a b
      (a.length + b.length + 1) 0 a.length 0 b.length)
    (a.length + b.length)

/-- The element loop of SequenceMatcher.quick_ratio(): avail starts at the
full counts of b and is decremented per use; each element of a with a
positive remaining count scores one match.  Junk plays no part here. -/
def quick_ratio_loop : List Char → (Char → Int) → Nat → Nat
  | [], _, m => m
  | c :: cs, avail, m =>
    let numb := avail c
    quick_ratio_loop cs (fun x => if x = c then numb - 1 else avail x)
      (if 0 < numb then m + 1 else m)

/-- SequenceMatcher.quick_ratio() with a as seq1 and b as seq2. -/
def difflib_quick_ratio (a b : List Char) : Rat :=
  calculate_ratio (quick_ratio_loop a (fun c => (countOf b c : Int)) 0) (a.length + b.length)

/-- The scorer ratio of MatchScorer with the given target as seq2:
self.matcher.set_seq1(message); self.matcher.ratio(). -/
def scorer_ratio (target message : String) : Rat :=
  difflib_ratio matchScorerIsJunk message.data target.data

/-- The scorer pre-filter ratio of MatchScorer with the given target as seq2:
self.matcher.set_seq1(message); self.matcher.quick_ratio(). -/
def scorer_quick_ratio (target message : String) : Rat :=
  difflib_quick_ratio message.data target.data

/-- One iteration of the loop in MatchScorer.best_match: compute the cheap
quick_ratio first, and only when it reaches the current best exact ratio
compute the full ratio; replace the best candidate only on a strict
improvement. -/
def best_match_step {α : Type} (qr r : String → Rat) (best : Option (Rat × α))
    (m : α) (message : String) : Option (Rat × α) :=
  match best with
  | none => some (r message, m)
  | some (s, b) =>
    if s ≤ qr message then
      if s < r message then some (r message, m) else some (s, b)
    else some (s, b)

/-- The loop of MatchScorer.best_match over the candidate list. -/
def best_match_go {α : Type} (qr r : String → Rat) :
    List (α × String) → Option (Rat × α) → Option (Rat × α)
  | [], best => best
  | (m, message) :: rest, best =>
    best_match_go qr r rest (best_match_step qr r best m message)

/-- MatchScorer.best_match: returns (score, match) for the most similar
candidate string, or none. -/
def MatchScorer.best_match {α : Type} (target : String) (cands : List (α × String)) :
    Option (Rat × α) :=
  best_match_go (scorer_quick_ratio target) (scorer_ratio target) cands none

/-- The exhaustive selection the claim C2 compares against, following the
specification text: compute the full alignment ratio for every candidate and
keep the first candidate attaining the strictly greatest ratio. -/
def best_match_exhaustive {α : Type} (r : String → Rat) :
    List (α × String) → Option (Rat × α) → Option (Rat × α)
  | [], best => best
  | (m, message) :: rest, best =>
    best_match_exhaustive r rest
      (match best with
       | none => some (r message, m)
       | some (s, b) => if s < r message then some (r message, m) else some (s, b))

/-! ## ElasticSearchTestMatcher (matchers.py lines 82-131)

The search backend is an external collaborator; it is modelled as a function
from a failure line to the response its per-line query yields: a query fault
(Except.error) or the ranked candidate list.  The backend function stands for
the whole filtered search of es_match_line (term filters on test, status,
expected, optional subtest, the best_classification-exists filter and the
phrase query on the message). -/

/-- One ranked candidate returned by the search backend: an indexed failure
message carrying a (verified) best classification id. -/
structure EsItem where
  message : String
  best_classification : Nat
deriving DecidableEq

/-- es_match_line: returns none (Python None) for lines the matcher does not
apply to (action not test_result, or falsy message); otherwise issues the
query, and a query fault is logged and then re-raised, so it propagates. -/
def es_match_line (backend : FailureLineData → Except Unit (List EsItem))
    (failure_line : FailureLineData) : Except Unit (Option (List EsItem)) :=
  if failure_line.action ≠ "test_result" ∨ failure_line.message.getD "" = "" then
    Except.ok none
  else
    match backend failure_line with
    | Except.error e => Except.error e
    | Except.ok resp => Except.ok (some resp)

/-- Collect a list of independent results the way Pool.map surfaces them: all
values in input order, or the fault if any single call raised. -/
def collectResults {ε β : Type} : List (Except ε β) → Except ε (List β)
  | [] => Except.ok []
  | Except.error e :: _ => Except.error e
  | Except.ok b :: rest =>
    match collectResults rest with
    | Except.error e => Except.error e
    | Except.ok bs => Except.ok (b :: bs)

/-- The response-consuming loop of ElasticSearchTestMatcher.__call__ over
izip(failure_lines, responses).  A none response is iterated by the Python
code (for item in resp) and raises, hence Except.error here; a some response
is scored by MatchScorer against the line message and the best candidate, if
any, becomes a Match carrying the candidate classification id. -/
def es_process : List (FailureLineData × Option (List EsItem)) → Except Unit (List Match)
  | [] => Except.ok []
  | (_, none) :: _ => Except.error ()
  | (l, some resp) :: rest =>
    let best := MatchScorer.best_match (l.message.getD "") (resp.map (fun item => (item, item.message)))
    match es_process rest with
    | Except.error e => Except.error e
    | Except.ok rv =>
      Except.ok ((match best with
        | some (score, item) => [Match.mk l item.best_classification score]
        | none => []) ++ rv)

/-- Modelled from the spec: the es_connected decorator lives in
treeherder.model.search, not under src/.  Per the spec, when the search
backend is entirely unavailable before any query is attempted the wrapped
matcher short-circuits and returns the default (the empty match list);
otherwise the wrapped body runs. -/
def es_connected {α : Type} (available : Bool) (dflt : α) (body : Unit → Except Unit α) :
    Except Unit α :=
  if available then body () else Except.ok dflt

/-- ElasticSearchTestMatcher.__call__: fan the per-line queries out
(pool.map keeps responses in input-list order and re-raises any query fault
when the results are collected), then score each response against its own
line. -/
def esTestMatcherCall (available : Bool) (backend : FailureLineData → Except Unit (List EsItem))
    (failure_lines : List FailureLineData) : Except Unit (List Match) :=
  es_connected available [] (fun _ =>
    match collectResults (failure_lines.map (es_match_line backend)) with
    | Except.error e => Except.error e
    | Except.ok responses => es_process (failure_lines.zip responses))

/-- The pool fan-out made explicit for claim C10: a schedule lists the order
in which the worker pool happens to execute the per-line queries; each
executed query is tagged with the index of the line that issued it. -/
def pool_map_sched {α β : Type} (f : α → β) (xs : List α) (sched : List Nat) :
    List (Nat × β) :=
  sched.filterMap (fun i => (xs[i]?).map (fun x => (i, f x)))

/-- Joining the pool results in input-list order: the response of line i is
the one tagged i, whatever position the schedule gave it. -/
def join_in_order {β : Type} (dflt : β) (n : Nat) (results : List (Nat × β)) : List β :=
  (List.range n).map (fun i => ((results.lookup i).getD dflt))

/-- ElasticSearchTestMatcher.__call__ with the worker schedule explicit: the
queries run in schedule order, the responses are joined in input-list order,
and everything downstream is as in esTestMatcherCall. -/
def esTestMatcherCallSched (sched : List Nat) (available : Bool)
    (backend : FailureLineData → Except Unit (List EsItem))
    (failure_lines : List FailureLineData) : Except Unit (List Match) :=
  es_connected available [] (fun _ =>
    match collectResults (join_in_order (Except.error ()) failure_lines.length
        (pool_map_sched (es_match_line backend) failure_lines sched)) with
    | Except.error e => Except.error e
    | Except.ok responses => es_process (failure_lines.zip responses))

/-! ## Classification orchestrator (management/commands/autoclassify.py) -/

/-- autoclassify.py line 14: the minimum goodness of match needed to mark a
particular match as the best match. -/
def autoclassify_cutoff_ratio : Rat := 0.7

/-- autoclassify.py line 16: a goodness of match after which no further
detectors run. -/
def autoclassify_good_enough_ratio : Rat := 0.9

/-- A matcher as the orchestrator sees it: called with the set of still
unmatched failure lines, returns Match tuples. -/
abbrev MatcherFn := Finset FailureLineData → List Match

/-- The orchestrator state while iterating registered matchers: the mutable
unmatched_failures set, the all_matched set (kept as a first-touch-ordered
deduplicated list), and the FailureMatch rows created so far, each recorded
as (failure line id, classified failure id, score) in creation order. -/
structure RunState where
  unmatched : Finset FailureLineData
  all_matched : List FailureLineData
  created : List (Nat × Nat × Rat)
deriving DecidableEq

/-- Processing of one returned Match inside the matcher loop of match_errors:
create the FailureMatch row, add the line to all_matched, and when the score
reaches the good-enough ratio remove the line from unmatched_failures. -/
def process_match (st : RunState) (m : Match) : RunState :=
  { unmatched :=
      if autoclassify_good_enough_ratio ≤ m.score then st.unmatched.erase m.failure_line
      else st.unmatched,
    all_matched :=
      if m.failure_line ∈ st.all_matched then st.all_matched
      else st.all_matched ++ [m.failure_line],
    created := st.created ++ [(m.failure_line.id, m.classified_failure, m.score)] }

/-- The unmatched-set projection of processing a list of matches. -/
def process_matches_unmatched (ms : List Match) (u : Finset FailureLineData) :
    Finset FailureLineData :=
  ms.foldl (fun u m =>
    if autoclassify_good_enough_ratio ≤ m.score then u.erase m.failure_line else u) u

/-- The matcher loop of match_errors: each registered matcher is invoked on
the current unmatched set, its matches are processed, and the loop breaks
when the unmatched set becomes empty. -/
def run_matchers : List MatcherFn → RunState → RunState
  | [], st => st
  | m :: ms, st =>
    let st1 := (m st.unmatched).foldl process_match st
    if st1.unmatched = ∅ then st1 else run_matchers ms st1

/-- The same loop instrumented to record, per registry position, the set of
lines the matcher was invoked on (none when the loop already stopped). -/
def run_matchers_trace : List MatcherFn → RunState → List (Option (Finset FailureLineData))
  | [], _ => []
  | m :: ms, st =>
    let st1 := (m st.unmatched).foldl process_match st
    some st.unmatched ::
      (if st1.unmatched = ∅ then ms.map (fun _ => none) else run_matchers_trace ms st1)

/-- A FailureMatch edge as seen from one failure line at the resolve-best
step: the classified failure it points to and its score. -/
structure FailureMatchEdge where
  classified_failure : Nat
  score : Rat
deriving DecidableEq

/-- The (score descending, classified-failure id descending) comparison on
the edges of one line: x strictly better than b. -/
def edge_better (b x : FailureMatchEdge) : Bool :=
  decide (b.score < x.score) ||
  (decide (b.score = x.score) && decide (b.classified_failure < x.classified_failure))

/-- The propositional form of edge_better: lexicographically greater on
(score, classified-failure id). -/
def edgeLt (b x : FailureMatchEdge) : Prop :=
  b.score < x.score ∨ (b.score = x.score ∧ b.classified_failure < x.classified_failure)

/-- Modelled from the spec: FailureLine.best_automatic_match lives in
treeherder.model.models, not under src/.  Per the spec it is the
highest-scoring FailureMatch of the line with score at or above the cutoff,
tie-broken by highest classified-failure id, or none. -/
def best_automatic_match (cutoff : Rat) (edges : List FailureMatchEdge) :
    Option FailureMatchEdge :=
  firstMaxBy edge_better (edges.filter (fun e => decide (cutoff ≤ e.score)))

/-- The resolve-best step of match_errors for one touched line: when a best
automatic match exists, best_classification is set to its classified failure;
otherwise the field is left as it was. -/
def resolve_best_classification (cutoff : Rat) (best0 : Option Nat)
    (edges : List FailureMatchEdge) : Option Nat :=
  match best_automatic_match cutoff edges with
  | some b => some b.classified_failure
  | none => best0

/-- The FailureMatch edges of one line among the rows created in this run
(the rows the resolve-best loop of match_errors inspects for a touched
line). -/
def edges_for_line (created : List (Nat × Nat × Rat)) (lid : Nat) : List FailureMatchEdge :=
  (created.filter (fun e => e.1 == lid)).map (fun e => FailureMatchEdge.mk e.2.1 e.2.2)

/-- The resolve-best loop over the touched lines: the (line id, classified
failure id) assignments performed. -/
def resolve_all (cutoff : Rat) (created : List (Nat × Nat × Rat))
    (all_matched : List FailureLineData) : Finset (Nat × Nat) :=
  (all_matched.filterMap (fun l =>
    (best_automatic_match cutoff (edges_for_line created l.id)).map
      (fun b => (l.id, b.classified_failure)))).toFinset

/-- The job row fields match_errors reads. -/
structure JobInfo where
  id : Nat
  result : String
deriving DecidableEq

/-- Everything match_errors writes to the store: FailureMatch rows created,
best_classification assignments, and update_after_autoclassification
notifications. -/
structure StoreWrites where
  created : List (Nat × Nat × Rat)
  best_set : Finset (Nat × Nat)
  notified : List Nat
deriving DecidableEq

/-- The empty store effect. -/
def emptyWrites : StoreWrites := StoreWrites.mk [] ∅ []

/-- match_errors: resolve the job (absent job is a logged no-op), gate on the
job result, gate on the unmatched set, run the matcher loop, resolve the best
classification of every touched line, and notify when anything matched. -/
def match_errors (job : Option JobInfo) (unmatched_for_job : Finset FailureLineData)
    (matchers : List MatcherFn) : StoreWrites :=
  match job with
  | none => emptyWrites
  | some j =>
    if j.result ∉ (["testfailed", "busted", "exception"] : List String) then emptyWrites
    else if unmatched_for_job = ∅ then emptyWrites
    else
      let st := run_matchers matchers (RunState.mk unmatched_for_job [] [])
      StoreWrites.mk st.created
        (resolve_all autoclassify_cutoff_ratio st.created st.all_matched)
        (if st.all_matched ≠ [] then [j.id] else [])

/-! ## Concrete instances used by counterexamples and witnesses -/

/-- A concrete failure line with the given id, job, action, test, message and
signature, and the given classification outcome fields. -/
def mkLine (i : Nat) (job act : String) (test msg sig : Option String)
    (bc : Option Nat) (ver : Bool) : FailureLineData :=
  FailureLineData.mk i job act test none "fail" "pass" msg sig bc ver

/-- The current line of the C1 instances: a test_result line of job j1. -/
def lineC1 : FailureLineData := mkLine 1 "j1" "test_result" (some "t") (some "m") none none false

/-- A historical line from another job that is unverified and has no
best_classification. -/
def histC1u : FailureLineData := mkLine 2 "j2" "test_result" (some "t") (some "m") none none false

/-- A historical line from another job that is verified yet has no
best_classification. -/
def histC1v : FailureLineData := mkLine 3 "j2" "test_result" (some "t") (some "m") none none true

/-- A FailureMatch edge on the unverified, classification-less line. -/
def rowC1u : FailureMatchRow := FailureMatchRow.mk histC1u 5 0.95

/-- A FailureMatch edge on the verified, classification-less line. -/
def rowC1v : FailureMatchRow := FailureMatchRow.mk histC1v 6 0.9

/-- A test_result line touched by the C4 witness matchers. -/
def lineC4a : FailureLineData := mkLine 10 "j1" "test_result" (some "t") (some "m") none none false

/-- A second line in the C4 witness unmatched set. -/
def lineC4b : FailureLineData := mkLine 11 "j1" "crash" (some "t") (some "m") (some "s") none false

/-- A matcher returning a good-enough match for lineC4a. -/
def matcherHi : MatcherFn := fun _ => [Match.mk lineC4a 1 0.95]

/-- A matcher returning nothing. -/
def matcherNone : MatcherFn := fun _ => []

/-- The initial orchestrator state of the C4 witness. -/
def stC4 : RunState := RunState.mk {lineC4a, lineC4b} [] []

/-- The crash line of concrete scenario B: signature sig1, test t1. -/
def crashLineB : FailureLineData := mkLine 20 "j1" "crash" (some "t1") none (some "sig1") none false

/-- The historical crash line of scenario B: same signature, different test. -/
def crashHistB : FailureLineData := mkLine 21 "j2" "crash" (some "t2") none (some "sig1") (some 4) true

/-- The historical FailureMatch of scenario B, score 1.0. -/
def crashRowB : FailureMatchRow := FailureMatchRow.mk crashHistB 4 1

/-- A test_result line whose search query the C6 backend fails. -/
def esLine1 : FailureLineData := mkLine 30 "j1" "test_result" (some "t") (some "assert X==Y") none none false

/-- A test_result line whose search query succeeds. -/
def esLine2 : FailureLineData := mkLine 31 "j1" "test_result" (some "t") (some "assert A==B") none none false

/-- A backend that faults on the query of esLine1 and returns an exact
candidate for every other line. -/
def backendFail1 : FailureLineData → Except Unit (List EsItem) := fun l =>
  if l.id == 30 then Except.error () else Except.ok [EsItem.mk "assert A==B" 7]

/-- A backend that answers every query, used by the C10 witness. -/
def backendOk : FailureLineData → Except Unit (List EsItem) := fun l =>
  if l.id == 30 then Except.ok [EsItem.mk "assert X==Y" 9]
  else Except.ok [EsItem.mk "assert A==B" 7]

/-- The touched-line edges of the C3 witness: two edges above the cutoff that
tie on score, one edge below it. -/
def edgesC3 : List FailureMatchEdge :=
  [FailureMatchEdge.mk 3 0.75, FailureMatchEdge.mk 5 0.75, FailureMatchEdge.mk 2 0.5]

/-! ## Theorems -/

/-- C1 counterexample: the code keeps as a candidate an edge whose
FailureLine is unverified and without best_classification (the claim says
exactly these are discarded), and discards an edge whose FailureLine is
verified and without best_classification (the claim says only same-job and
unverified-and-classificationless edges are discarded). -/
theorem precise_exclusion_counterexample :
    rowC1u.failure_line.best_classification = none ∧
    rowC1u.failure_line.best_is_verified = false ∧
    rowC1u.failure_line.job_guid ≠ lineC1.job_guid ∧
    rowC1u ∈ precise_matching_failures [rowC1u, rowC1v] lineC1 ∧
    rowC1v.failure_line.best_classification = none ∧
    rowC1v.failure_line.best_is_verified = true ∧
    rowC1v.failure_line.job_guid ≠ lineC1.job_guid ∧
    rowC1v ∉ precise_matching_failures [rowC1u, rowC1v] lineC1 := by
  with_unfolding_all decide

/-- C1 amended: a historical FailureMatch edge survives the Exact-Field
Matcher exclusion exactly when its FailureLine carries the identical
(action, test, subtest, status, expected, message) fields, belongs to a
different job, and is not a line that is verified yet has no
best_classification. -/
theorem precise_exclusion_characterization (db : List FailureMatchRow) (l : FailureLineData)
    (r : FailureMatchRow) :
    r ∈ precise_matching_failures db l ↔
      r ∈ db ∧ precise_fields_match l r.failure_line = true ∧
        r.failure_line.job_guid ≠ l.job_guid ∧
        ¬(r.failure_line.best_classification = none ∧ r.failure_line.best_is_verified = true) := by
  constructor
  · intro hr
    obtain ⟨h2, h3⟩ := List.mem_filter.1 hr
    obtain ⟨hdb, hf⟩ := List.mem_filter.1 h2
    have h4 : (ignored_line r.failure_line ||
        decide (r.failure_line.job_guid = l.job_guid)) = false := by
      rcases h : (ignored_line r.failure_line ||
        decide (r.failure_line.job_guid = l.job_guid)) with _ | _
      · rfl
      · rw [h] at h3
        exact absurd h3 (by decide)
    rw [Bool.or_eq_false_iff] at h4
    obtain ⟨hig, hguid⟩ := h4
    refine ⟨hdb, hf, of_decide_eq_false hguid, ?_⟩
    rintro ⟨hbc, hver⟩
    simp [ignored_line, hbc, hver] at hig
  · rintro ⟨hdb, hf, hguid, hnot⟩
    apply List.mem_filter.2
    refine ⟨List.mem_filter.2 ⟨hdb, hf⟩, ?_⟩
    have hig : ignored_line r.failure_line = false := by
      unfold ignored_line
      cases hbc : r.failure_line.best_classification with
      | none =>
        cases hv : r.failure_line.best_is_verified with
        | false => simp [hv]
        | true => exact absurd ⟨hbc, hv⟩ hnot
      | some v => simp
    rw [hig, decide_eq_false hguid]
    rfl

/-- Helper: once the best_match loop of MatchScorer holds a candidate it
never returns to none. -/
theorem best_match_go_some_ne_none {α : Type} (qr r : String → Rat)
    (ms : List (α × String)) (x : Rat × α) :
    best_match_go qr r ms (some x) ≠ none := by
  induction ms generalizing x with
  | nil => simp [best_match_go]
  | cons p rest ih =>
    obtain ⟨m, msg⟩ := p
    obtain ⟨s, b⟩ := x
    have hstep : ∃ y, best_match_step qr r (some (s, b)) m msg = some y := by
      simp only [best_match_step]
      split_ifs <;> exact ⟨_, rfl⟩
    obtain ⟨y, hy⟩ := hstep
    simpa [best_match_go, hy] using ih y

/-- C7 counterexample: with an empty target string and a non-empty candidate
list, best_match does not return "no match": the first candidate is always
fully evaluated, and on this one-candidate list it is returned with exact
ratio 0. -/
theorem best_match_empty_target_counterexample :
    MatchScorer.best_match "" [((0 : Nat), "a")] = some (0, 0) ∧
    MatchScorer.best_match "" [((0 : Nat), "a")] ≠ none := by
  constructor
  · with_unfolding_all decide
  · with_unfolding_all decide

/-- C7 amended: MatchScorer.best_match returns "no match" exactly when the
candidate list is empty; in particular an empty target string still yields
some candidate on a non-empty list, and the pre-filter can never eliminate
every candidate, because the first candidate is always fully evaluated. -/
theorem best_match_none_iff_empty {α : Type} (target : String) (cands : List (α × String)) :
    MatchScorer.best_match target cands = none ↔ cands = [] := by
  cases cands with
  | nil => simp [MatchScorer.best_match, best_match_go]
  | cons p rest =>
    obtain ⟨m, msg⟩ := p
    simp only [MatchScorer.best_match, best_match_go, best_match_step]
    constructor
    · intro h
      exact absurd h (best_match_go_some_ne_none _ _ _ _)
    · intro h
      exact absurd h (List.cons_ne_nil _ _)

/-- C9 counterexample: the junk predicate of MatchScorer holds only of the
space character: the tab is whitespace, yet it is not junk and its positions
take part in the b2j alignment index of the target. -/
theorem junk_space_only_counterexample :
    Char.isWhitespace '\t' = true ∧ matchScorerIsJunk '\t' = false ∧
    chain_b2j matchScorerIsJunk ['a', '\t'] '\t' = [1] ∧
    chain_b2j matchScorerIsJunk ['a', ' '] ' ' = [] := by
  decide

/-- C9 amended: exactly the space character is treated as junk by the
Similarity Scorer: the junk predicate holds iff the token is the space
character, junk is excluded from the b2j alignment index, and any other
whitespace character keeps all its positions in the index (on targets short
enough not to trigger the autojunk purge). -/
theorem junk_exactly_space (c : Char) (b : List Char) :
    (matchScorerIsJunk c = true ↔ c = ' ') ∧
    chain_b2j matchScorerIsJunk b ' ' = [] ∧
    (c.isWhitespace = true → c ≠ ' ' → b.length < 200 →
      chain_b2j matchScorerIsJunk b c = indicesOf b c) := by
  refine ⟨?_, ?_, ?_⟩
  · simp [matchScorerIsJunk]
  · simp [chain_b2j, matchScorerIsJunk]
  · intro _ hne hlen
    have hj : matchScorerIsJunk c = false := by
      simp [matchScorerIsJunk, hne]
    simp only [chain_b2j, hj, Bool.false_eq_true, if_false]
    rw [if_neg]
    rintro ⟨h200, _⟩
    omega

/-- C9 witness: the amended statement applied to the tab character and a
short target containing it. -/
theorem junk_exactly_space_witness :
    Char.isWhitespace '\t' = true ∧ '\t' ≠ ' ' ∧ (['b', '\t'] : List Char).length < 200 ∧
    chain_b2j matchScorerIsJunk ['b', '\t'] '\t' = indicesOf ['b', '\t'] '\t' :=
  ⟨by decide, by decide, by decide,
    (junk_exactly_space '\t' ['b', '\t']).2.2 (by decide) (by decide) (by decide)⟩

/-- C8: for a job whose result is not testfailed, busted or exception,
match_errors terminates at the result-filter gate and performs no store
writes: no FailureMatch row, no best_classification assignment, no
notification. -/
theorem match_errors_result_gate (j : JobInfo) (u : Finset FailureLineData)
    (ms : List MatcherFn) (h : j.result ∉ (["testfailed", "busted", "exception"] : List String)) :
    match_errors (some j) u ms = emptyWrites := by
  simp [match_errors, h]

/-- C8 witness: a job with result success writes nothing, even with a
non-empty unmatched set and an eager matcher registered. -/
theorem match_errors_result_gate_witness :
    (JobInfo.mk 99 "success").result ∉ (["testfailed", "busted", "exception"] : List String) ∧
    match_errors (some (JobInfo.mk 99 "success")) {lineC4a} [matcherHi] = emptyWrites := by
  have h : (JobInfo.mk 99 "success").result ∉ (["testfailed", "busted", "exception"] : List String) := by
    decide
  exact ⟨h, match_errors_result_gate _ _ _ h⟩

/-- C5: whenever the Crash-Signature Matcher returns a Match, its score is
the selected historical score unchanged when the tests agree, and exactly
0.8 times it when the tests differ. -/
theorem crash_matcher_score_penalty (db : List FailureMatchRow) (lines : List FailureLineData)
    (m : Match) (hm : m ∈ crashSignatureMatcherCall db lines) :
    ∃ r, firstMaxBy (crash_better m.failure_line) (crash_matching_failures db m.failure_line) =
        some r ∧
      m.classified_failure = r.classified_failure ∧
      (m.failure_line.test = r.failure_line.test → m.score = r.score) ∧
      (m.failure_line.test ≠ r.failure_line.test → m.score = 0.8 * r.score) := by
  rw [crashSignatureMatcherCall, List.mem_flatMap] at hm
  obtain ⟨l, _, hml⟩ := hm
  unfold crash_line_matches at hml
  split at hml
  · exact absurd hml (List.not_mem_nil m)
  split at hml
  case _ best hbest =>
    rw [List.mem_singleton] at hml
    subst hml
    refine ⟨best, hbest, rfl, ?_, ?_⟩
    · intro heq
      show (if l.test ≠ best.failure_line.test then 8 * best.score / 10 else best.score) =
        best.score
      rw [if_neg (fun hne => hne heq)]
    · intro hne
      show (if l.test ≠ best.failure_line.test then 8 * best.score / 10 else best.score) =
        0.8 * best.score
      rw [if_pos hne]
      have h08 : (0.8 : Rat) = 8 / 10 := by norm_num
      rw [h08]
      ring
  case _ => exact absurd hml (List.not_mem_nil m)

/-- C5 witness: concrete scenario B: crash line with test t1, historical
match with the same signature but test t2 and score 1.0; the matcher returns
the 0.8-penalized score. -/
theorem crash_matcher_score_penalty_witness :
    Match.mk crashLineB 4 0.8 ∈ crashSignatureMatcherCall [crashRowB] [crashLineB] ∧
    (∃ r, firstMaxBy (crash_better (Match.mk crashLineB 4 0.8).failure_line)
        (crash_matching_failures [crashRowB] (Match.mk crashLineB 4 0.8).failure_line) =
          some r ∧
      (Match.mk crashLineB 4 0.8).classified_failure = r.classified_failure ∧
      ((Match.mk crashLineB 4 0.8).failure_line.test = r.failure_line.test →
        (Match.mk crashLineB 4 0.8).score = r.score) ∧
      ((Match.mk crashLineB 4 0.8).failure_line.test ≠ r.failure_line.test →
        (Match.mk crashLineB 4 0.8).score = 0.8 * r.score)) := by
  have hm : Match.mk crashLineB 4 0.8 ∈ crashSignatureMatcherCall [crashRowB] [crashLineB] := by
    with_unfolding_all decide
  exact ⟨hm, crash_matcher_score_penalty _ _ _ hm⟩

/-- Helper for C2: the pre-filtered loop agrees with the exhaustive loop from
any accumulator, provided the quick ratio is an upper bound of the exact
ratio on every candidate of the list. -/
theorem best_match_go_eq_exhaustive {α : Type} (qr r : String → Rat) :
    ∀ (ms : List (α × String)) (acc : Option (Rat × α)),
      (∀ p ∈ ms, r p.2 ≤ qr p.2) →
      best_match_go qr r ms acc = best_match_exhaustive r ms acc := by
  intro ms
  induction ms with
  | nil => intro acc _; rfl
  | cons p rest ih =>
    intro acc h
    obtain ⟨m, msg⟩ := p
    have hp : r msg ≤ qr msg := h (m, msg) (List.mem_cons_self _ _)
    have hrest : ∀ q ∈ rest, r q.2 ≤ qr q.2 := fun q hq => h q (List.mem_cons_of_mem _ hq)
    have hstep : best_match_step qr r acc m msg =
        (match acc with
         | none => some (r msg, m)
         | some (s, b) => if s < r msg then some (r msg, m) else some (s, b)) := by
      cases acc with
      | none => rfl
      | some x =>
        obtain ⟨s, b⟩ := x
        show (if s ≤ qr msg then if s < r msg then some (r msg, m) else some (s, b)
              else some (s, b)) = _
        by_cases hle : s ≤ qr msg
        · rw [if_pos hle]
        · rw [if_neg hle]
          exact (if_neg (fun hlt => hle (le_trans (le_of_lt hlt) hp))).symm
    simp only [best_match_go, best_match_exhaustive, hstep]
    exact ih _ hrest

/-- C2: the quick-ratio pre-filter of MatchScorer.best_match does not change
the selected candidate nor its exact ratio: it agrees with the exhaustive
selection that fully scores every candidate and keeps the first one attaining
the strictly greatest exact ratio, whenever the quick ratio bounds the exact
ratio from above on the candidate list (the documented contract of the
SequenceMatcher pre-filter). -/
theorem best_match_prefilter_refines_exhaustive {α : Type} (target : String)
    (cands : List (α × String))
    (h : ∀ p ∈ cands, scorer_ratio target p.2 ≤ scorer_quick_ratio target p.2) :
    MatchScorer.best_match target cands =
      best_match_exhaustive (scorer_ratio target) cands none :=
  best_match_go_eq_exhaustive _ _ cands none h

/-- C2 witness: a concrete target and candidate list on which the upper-bound
hypothesis is checked by evaluation and the two selections agree. -/
theorem best_match_prefilter_refines_exhaustive_witness :
    (∀ p ∈ [((1 : Nat), "assert A==B"), (2, "assert X==Y")],
      scorer_ratio "assert X==Y" p.2 ≤ scorer_quick_ratio "assert X==Y" p.2) ∧
    MatchScorer.best_match "assert X==Y" [((1 : Nat), "assert A==B"), (2, "assert X==Y")] =
      best_match_exhaustive (scorer_ratio "assert X==Y")
        [((1 : Nat), "assert A==B"), (2, "assert X==Y")] none := by
  have h : ∀ p ∈ [((1 : Nat), "assert A==B"), (2, "assert X==Y")],
      scorer_ratio "assert X==Y" p.2 ≤ scorer_quick_ratio "assert X==Y" p.2 := by
    with_unfolding_all decide
  exact ⟨h, best_match_prefilter_refines_exhaustive _ _ h⟩

/-- Helper: the foldl of firstMaxBy started from a candidate returns a value
that is the start or a list element, is not beaten by the start, and is not
beaten by any list element; better must be irreflexive and satisfy the two
exchange laws of a strict total comparison. -/
theorem firstMaxBy_go_spec {α : Type} (better : α → α → Bool)
    (hirr : ∀ a, better a a = false)
    (h3 : ∀ p q s, better p q = true → better s q = false → better s p = false)
    (h4 : ∀ p q s, better p q = false → better s p = false → better s q = false) :
    ∀ (l : List α) (b x : α),
      l.foldl (fun acc x =>
        match acc with
        | none => some x
        | some b => if better b x then some x else some b) (some b) = some x →
      (x = b ∨ x ∈ l) ∧ better x b = false ∧ ∀ y ∈ l, better x y = false := by
  intro l
  induction l with
  | nil =>
    intro b x hx
    obtain rfl : b = x := Option.some_injective _ hx
    exact ⟨Or.inl rfl, hirr b, by intro y hy; exact absurd hy (List.not_mem_nil y)⟩
  | cons a l2 ih =>
    intro b x hx
    rw [List.foldl_cons] at hx
    by_cases hba : better b a = true
    · have hx2 : List.foldl (fun acc x =>
          match acc with
          | none => some x
          | some b => if better b x then some x else some b) (some a) l2 = some x := by
        simpa [hba] using hx
      obtain ⟨hmem, hxa, hall⟩ := ih a x hx2
      refine ⟨?_, h3 b a x hba hxa, ?_⟩
      · rcases hmem with rfl | hm
        · exact Or.inr (List.mem_cons_self _ _)
        · exact Or.inr (List.mem_cons_of_mem _ hm)
      · intro y hy
        rcases List.mem_cons.1 hy with rfl | hy2
        · exact hxa
        · exact hall y hy2
    · have hba2 : better b a = false := by
        rcases h : better b a with _ | _
        · rfl
        · exact absurd h hba
      have hx2 : List.foldl (fun acc x =>
          match acc with
          | none => some x
          | some b => if better b x then some x else some b) (some b) l2 = some x := by
        simpa [hba2] using hx
      obtain ⟨hmem, hxb, hall⟩ := ih b x hx2
      refine ⟨?_, hxb, ?_⟩
      · rcases hmem with rfl | hm
        · exact Or.inl rfl
        · exact Or.inr (List.mem_cons_of_mem _ hm)
      · intro y hy
        rcases List.mem_cons.1 hy with rfl | hy2
        · exact h4 b y x hba2 hxb
        · exact hall y hy2

/-- Helper: the foldl of firstMaxBy started from a candidate returns some
value. -/
theorem firstMaxBy_go_isSome {α : Type} (better : α → α → Bool) :
    ∀ (l : List α) (b : α), ∃ x,
      l.foldl (fun acc x =>
        match acc with
        | none => some x
        | some b => if better b x then some x else some b) (some b) = some x := by
  intro l
  induction l with
  | nil => intro b; exact ⟨b, rfl⟩
  | cons a l2 ih =>
    intro b
    rw [List.foldl_cons]
    by_cases hba : better b a = true
    · simpa [hba] using ih a
    · have hba2 : better b a = false := by
        rcases h : better b a with _ | _
        · rfl
        · exact absurd h hba
      simpa [hba2] using ih b

/-- Helper: firstMaxBy on a non-empty list yields a member not beaten by any
member. -/
theorem firstMaxBy_spec {α : Type} (better : α → α → Bool)
    (hirr : ∀ a, better a a = false)
    (h3 : ∀ p q s, better p q = true → better s q = false → better s p = false)
    (h4 : ∀ p q s, better p q = false → better s p = false → better s q = false)
    (l : List α) (x : α) (hx : firstMaxBy better l = some x) :
    x ∈ l ∧ ∀ y ∈ l, better x y = false := by
  cases l with
  | nil => exact absurd hx (by simp [firstMaxBy])
  | cons a l2 =>
    rw [firstMaxBy, List.foldl_cons] at hx
    obtain ⟨hmem, hxa, hall⟩ := firstMaxBy_go_spec better hirr h3 h4 l2 a x hx
    constructor
    · rcases hmem with rfl | hm
      · exact List.mem_cons_self _ _
      · exact List.mem_cons_of_mem _ hm
    · intro y hy
      rcases List.mem_cons.1 hy with rfl | hy2
      · exact hxa
      · exact hall y hy2

/-- Helper: firstMaxBy on a non-empty list returns some value. -/
theorem firstMaxBy_isSome_of_ne_nil {α : Type} (better : α → α → Bool) (l : List α)
    (hl : l ≠ []) : ∃ x, firstMaxBy better l = some x := by
  cases l with
  | nil => exact absurd rfl hl
  | cons a l2 =>
    rw [firstMaxBy, List.foldl_cons]
    exact firstMaxBy_go_isSome better l2 a

/-- Helper: edge_better decides edgeLt. -/
theorem edge_better_eq_true_iff (b x : FailureMatchEdge) :
    edge_better b x = true ↔ edgeLt b x := by
  simp [edge_better, edgeLt]

/-- Helper: failure of edge_better decides the negation of edgeLt. -/
theorem edge_better_eq_false_iff (b x : FailureMatchEdge) :
    edge_better b x = false ↔ ¬ edgeLt b x := by
  rw [← edge_better_eq_true_iff]
  rcases h : edge_better b x with _ | _ <;> simp

/-- Helper: edgeLt is transitive. -/
theorem edgeLt_trans {a b c : FailureMatchEdge} (h1 : edgeLt a b) (h2 : edgeLt b c) :
    edgeLt a c := by
  rcases h1 with h1 | ⟨h1, h1c⟩ <;> rcases h2 with h2 | ⟨h2, h2c⟩
  · exact Or.inl (lt_trans h1 h2)
  · exact Or.inl (h2 ▸ h1)
  · exact Or.inl (h1 ▸ h2)
  · exact Or.inr ⟨h1.trans h2, Nat.lt_trans h1c h2c⟩

/-- Helper: when b is not better than a, either a is better than b or the
two sort keys coincide. -/
theorem edgeLt_not_lt {a b : FailureMatchEdge} (h : ¬ edgeLt a b) :
    edgeLt b a ∨ (a.score = b.score ∧ a.classified_failure = b.classified_failure) := by
  rcases lt_trichotomy a.score b.score with hs | hs | hs
  · exact absurd (Or.inl hs) h
  · rcases Nat.lt_trichotomy a.classified_failure b.classified_failure with hc | hc | hc
    · exact absurd (Or.inr ⟨hs, hc⟩) h
    · exact Or.inr ⟨hs, hc⟩
    · exact Or.inl (Or.inr ⟨hs.symm, hc⟩)
  · exact Or.inl (Or.inl hs)

/-- Helper: edge_better is irreflexive. -/
theorem edge_better_irrefl (a : FailureMatchEdge) : edge_better a a = false := by
  rw [edge_better_eq_false_iff, edgeLt]
  rintro (h | ⟨-, h⟩)
  · exact lt_irrefl _ h
  · exact Nat.lt_irrefl _ h

/-- Helper: the first exchange law of edge_better. -/
theorem edge_better_exch1 (p q s : FailureMatchEdge) (h1 : edge_better p q = true)
    (h2 : edge_better s q = false) : edge_better s p = false := by
  rw [edge_better_eq_true_iff] at h1
  rw [edge_better_eq_false_iff] at h2 ⊢
  intro hsp
  exact h2 (edgeLt_trans hsp h1)

/-- Helper: the second exchange law of edge_better. -/
theorem edge_better_exch2 (p q s : FailureMatchEdge) (h1 : edge_better p q = false)
    (h2 : edge_better s p = false) : edge_better s q = false := by
  rw [edge_better_eq_false_iff] at h1 h2 ⊢
  intro hsq
  rcases edgeLt_not_lt h1 with hqp | ⟨hs, hc⟩
  · exact h2 (edgeLt_trans hsq hqp)
  · refine h2 ?_
    rcases hsq with h | ⟨h, hcf⟩
    · exact Or.inl (hs ▸ h)
    · exact Or.inr ⟨hs ▸ h, hc ▸ hcf⟩

/-- C3: at the resolve-best step a touched line gets a best_classification
iff one of its FailureMatch edges reaches the 0.7 cutoff, and then the
assigned classified failure is that of the highest-scoring such edge, ties
broken by the greatest classified-failure id (spec-modelled
best_automatic_match, orchestrated as in autoclassify.py lines 72-77). -/
theorem resolve_best_spec (edges : List FailureMatchEdge) (best0 : Option Nat) :
    ((¬ ∃ e ∈ edges, autoclassify_cutoff_ratio ≤ e.score) →
      resolve_best_classification autoclassify_cutoff_ratio best0 edges = best0) ∧
    ((∃ e ∈ edges, autoclassify_cutoff_ratio ≤ e.score) →
      ∃ e ∈ edges, autoclassify_cutoff_ratio ≤ e.score ∧
        resolve_best_classification autoclassify_cutoff_ratio best0 edges =
          some e.classified_failure ∧
        ∀ f ∈ edges, autoclassify_cutoff_ratio ≤ f.score →
          f.score < e.score ∨
            (f.score = e.score ∧ f.classified_failure ≤ e.classified_failure)) := by
  constructor
  · intro hno
    have hfil : edges.filter (fun e => decide (autoclassify_cutoff_ratio ≤ e.score)) = [] := by
      rw [List.filter_eq_nil_iff]
      intro e he hdec
      exact hno ⟨e, he, of_decide_eq_true hdec⟩
    rw [resolve_best_classification, best_automatic_match, hfil]
    rfl
  · intro hex
    obtain ⟨e0, he0, hs0⟩ := hex
    have he0f : e0 ∈ edges.filter (fun e => decide (autoclassify_cutoff_ratio ≤ e.score)) :=
      List.mem_filter.2 ⟨he0, decide_eq_true hs0⟩
    have hne : edges.filter (fun e => decide (autoclassify_cutoff_ratio ≤ e.score)) ≠ [] := by
      intro hnil
      rw [hnil] at he0f
      exact absurd he0f (List.not_mem_nil _)
    obtain ⟨x, hx⟩ := firstMaxBy_isSome_of_ne_nil edge_better _ hne
    obtain ⟨hmemf, hmax⟩ :=
      firstMaxBy_spec edge_better edge_better_irrefl edge_better_exch1 edge_better_exch2 _ x hx
    obtain ⟨hmem, hcut⟩ := List.mem_filter.1 hmemf
    refine ⟨x, hmem, of_decide_eq_true hcut, ?_, ?_⟩
    · unfold resolve_best_classification best_automatic_match
      rw [hx]
    · intro f hf hfc
      have hff : f ∈ edges.filter (fun e => decide (autoclassify_cutoff_ratio ≤ e.score)) :=
        List.mem_filter.2 ⟨hf, decide_eq_true hfc⟩
      have hbet := hmax f hff
      rw [edge_better_eq_false_iff] at hbet
      rcases edgeLt_not_lt hbet with hlt | ⟨hs, hc⟩
      · rcases hlt with h | ⟨h, hcf⟩
        · exact Or.inl h
        · exact Or.inr ⟨h, Nat.le_of_lt hcf⟩
      · exact Or.inr ⟨hs.symm, Nat.le_of_eq hc.symm⟩

/-- C3 witness: two edges tie at 0.75 above the cutoff and one sits below
it; the resolution picks classified failure 5, the greater id among the
tied top scorers. -/
theorem resolve_best_spec_witness :
    (∃ e ∈ edgesC3, autoclassify_cutoff_ratio ≤ e.score) ∧
    (∃ e ∈ edgesC3, autoclassify_cutoff_ratio ≤ e.score ∧
      resolve_best_classification autoclassify_cutoff_ratio none edgesC3 =
        some e.classified_failure ∧
      ∀ f ∈ edgesC3, autoclassify_cutoff_ratio ≤ f.score →
        f.score < e.score ∨
          (f.score = e.score ∧ f.classified_failure ≤ e.classified_failure)) := by
  have hex : ∃ e ∈ edgesC3, autoclassify_cutoff_ratio ≤ e.score := by
    with_unfolding_all decide
  exact ⟨hex, (resolve_best_spec edgesC3 none).2 hex⟩

/-- C6 counterexample: with the backend faulting on one query, the matcher
invocation does not complete with the other lines matched: it propagates the
fault, although the same call on the unaffected line alone yields its
match. -/
theorem es_query_fault_not_recovered_counterexample :
    esTestMatcherCall true backendFail1 [esLine1, esLine2] = Except.error () ∧
    esTestMatcherCall true backendFail1 [esLine2] = Except.ok [Match.mk esLine2 7 1] := by
  constructor
  · with_unfolding_all rfl
  · with_unfolding_all rfl

/-- Helper: Pool.map raises whenever one of the per-line calls raised. -/
theorem collectResults_error {β : Type} :
    ∀ (l : List (Except Unit β)), (∃ x ∈ l, x = Except.error ()) →
      collectResults l = Except.error () := by
  intro l
  induction l with
  | nil =>
    rintro ⟨x, hx, -⟩
    exact absurd hx (List.not_mem_nil x)
  | cons a rest ih =>
    rintro ⟨x, hx, rfl⟩
    rcases List.mem_cons.1 hx with rfl | hx2
    · rfl
    · cases a with
      | error e => cases e; rfl
      | ok b => simp only [collectResults, ih ⟨_, hx2, rfl⟩]

/-- C6 amended: a query fault for a single line inside es_match_line is
logged and re-raised; with the backend available, the fault propagates
through the pool fan-out and aborts the whole matcher invocation, so no line
of the batch yields a Match. -/
theorem es_query_fault_aborts_call (backend : FailureLineData → Except Unit (List EsItem))
    (lines : List FailureLineData) (l : FailureLineData) (hl : l ∈ lines)
    (ha : l.action = "test_result") (hmsg : l.message.getD "" ≠ "")
    (hb : backend l = Except.error ()) :
    esTestMatcherCall true backend lines = Except.error () := by
  have hml : es_match_line backend l = Except.error () := by
    unfold es_match_line
    rw [if_neg (by rintro (hne | hmm); exacts [hne ha, hmsg hmm]), hb]
  have hcol : collectResults (lines.map (es_match_line backend)) = Except.error () :=
    collectResults_error _ ⟨es_match_line backend l, List.mem_map_of_mem _ hl, hml⟩
  show (match collectResults (lines.map (es_match_line backend)) with
    | Except.error e => Except.error e
    | Except.ok responses => es_process (lines.zip responses)) = Except.error ()
  rw [hcol]

/-- C6 witness: the amended statement applied to the concrete faulting
backend and two-line batch. -/
theorem es_query_fault_aborts_call_witness :
    esLine1 ∈ [esLine1, esLine2] ∧ esLine1.action = "test_result" ∧
    esLine1.message.getD "" ≠ "" ∧ backendFail1 esLine1 = Except.error () ∧
    esTestMatcherCall true backendFail1 [esLine1, esLine2] = Except.error () := by
  have h1 : esLine1 ∈ [esLine1, esLine2] := by decide
  have h2 : esLine1.action = "test_result" := by decide
  have h3 : esLine1.message.getD "" ≠ "" := by decide
  have h4 : backendFail1 esLine1 = Except.error () := rfl
  exact ⟨h1, h2, h3, h4, es_query_fault_aborts_call backendFail1 _ _ h1 h2 h3 h4⟩

/-- Helper: each executed query is tagged with the index of the line that
issued it, so looking an index up in the pool results returns the response
of that very line. -/
theorem lookup_pool_map_sched {α β : Type} (f : α → β) (xs : List α) :
    ∀ (sched : List Nat) (i : Nat) (x : α), xs[i]? = some x → i ∈ sched →
      (pool_map_sched f xs sched).lookup i = some (f x) := by
  intro sched
  induction sched with
  | nil =>
    intro i x _ hi
    exact absurd hi (List.not_mem_nil i)
  | cons j rest ih =>
    intro i x hx hi
    unfold pool_map_sched
    rw [List.filterMap_cons]
    cases hj : xs[j]? with
    | none =>
      have hij : i ≠ j := by
        rintro rfl
        rw [hx] at hj
        exact Option.noConfusion hj
      rcases List.mem_cons.1 hi with rfl | hi2
      · exact absurd rfl hij
      · exact ih i x hx hi2
    | some y =>
      by_cases hij : i = j
      · subst hij
        rw [hx] at hj
        obtain rfl : x = y := Option.some_injective _ hj
        simp [List.lookup_cons]
      · rcases List.mem_cons.1 hi with rfl | hi2
        · exact absurd rfl hij
        · rw [Option.map_some', List.lookup_cons]
          have hbe : (i == j) = false := by
            simp [hij]
          rw [hbe]
          exact ih i x hx hi2

/-- Helper: joining the scheduled pool results in input order recovers the
plain map, whenever the schedule executed every index. -/
theorem join_pool_map {α β : Type} (f : α → β) (dflt : β) (xs : List α) (sched : List Nat)
    (hall : ∀ i < xs.length, i ∈ sched) :
    join_in_order dflt xs.length (pool_map_sched f xs sched) = xs.map f := by
  apply List.ext_getElem?
  intro n
  rw [join_in_order, List.getElem?_map, List.getElem?_map]
  rcases Nat.lt_or_ge n xs.length with hn | hn
  · rw [List.getElem?_range hn]
    obtain ⟨x, hx⟩ : ∃ x, xs[n]? = some x := by
      rw [List.getElem?_eq_getElem hn]
      exact ⟨_, rfl⟩
    rw [hx]
    simp only [Option.map_some']
    rw [lookup_pool_map_sched f xs sched n x hx (hall n hn)]
    rfl
  · rw [List.getElem?_eq_none (by simpa using hn), List.getElem?_eq_none hn]
    rfl

/-- C10: the Fuzzy Search Matcher output is independent of the worker
schedule: for any schedule that is a permutation of the line indices, the
scheduled fan-out joined in input-list order produces exactly the result of
the sequential call, so the Match sequence is a function of the input lines
and the per-line backend responses alone. -/
theorem es_call_schedule_independent (sched : List Nat) (available : Bool)
    (backend : FailureLineData → Except Unit (List EsItem)) (lines : List FailureLineData)
    (hperm : sched.Perm (List.range lines.length)) :
    esTestMatcherCallSched sched available backend lines =
      esTestMatcherCall available backend lines := by
  have hall : ∀ i < lines.length, i ∈ sched := fun i hi =>
    hperm.mem_iff.2 (List.mem_range.2 hi)
  unfold esTestMatcherCallSched esTestMatcherCall
  rw [join_pool_map (es_match_line backend) (Except.error ()) lines sched hall]

/-- C10 witness: the two-line batch executed in reversed worker order yields
the same call result as the sequential order. -/
theorem es_call_schedule_independent_witness :
    ([1, 0] : List Nat).Perm
      (List.range ([esLine1, esLine2] : List FailureLineData).length) ∧
    esTestMatcherCallSched [1, 0] true backendOk [esLine1, esLine2] =
      esTestMatcherCall true backendOk [esLine1, esLine2] := by
  have hp : ([1, 0] : List Nat).Perm
      (List.range ([esLine1, esLine2] : List FailureLineData).length) := by
    decide
  exact ⟨hp, es_call_schedule_independent _ _ _ _ hp⟩

/-- Helper: processing matches only ever removes lines from the unmatched
set. -/
theorem process_matches_unmatched_subset :
    ∀ (ms : List Match) (u : Finset FailureLineData), process_matches_unmatched ms u ⊆ u := by
  intro ms
  induction ms with
  | nil =>
    intro u
    exact Finset.Subset.refl u
  | cons m rest ih =>
    intro u
    unfold process_matches_unmatched
    rw [List.foldl_cons]
    refine Finset.Subset.trans (ih _) ?_
    split
    · exact Finset.erase_subset _ _
    · exact Finset.Subset.refl u

/-- Helper: a line matched with a good-enough score is absent from the
unmatched set after its matcher is processed. -/
theorem process_matches_unmatched_erased :
    ∀ (ms : List Match) (u : Finset FailureLineData) (m : Match), m ∈ ms →
      autoclassify_good_enough_ratio ≤ m.score →
      m.failure_line ∉ process_matches_unmatched ms u := by
  intro ms
  induction ms with
  | nil =>
    intro u m hm
    exact absurd hm (List.not_mem_nil m)
  | cons a rest ih =>
    intro u m hm hs
    unfold process_matches_unmatched
    rw [List.foldl_cons]
    rcases List.mem_cons.1 hm with rfl | hm2
    · rw [if_pos hs]
      intro hcon
      exact (Finset.not_mem_erase m.failure_line u)
        (process_matches_unmatched_subset rest _ hcon)
    · exact ih _ m hm2 hs

/-- Helper: the unmatched-set component of the full state fold is the
unmatched-set fold. -/
theorem foldl_process_match_unmatched :
    ∀ (ms : List Match) (st : RunState),
      (ms.foldl process_match st).unmatched = process_matches_unmatched ms st.unmatched := by
  intro ms
  induction ms with
  | nil => intro st; rfl
  | cons m rest ih =>
    intro st
    rw [List.foldl_cons]
    unfold process_matches_unmatched
    rw [List.foldl_cons, ih (process_match st m)]
    rfl

/-- Helper: the instrumented trace has one entry per registered matcher. -/
theorem run_matchers_trace_length :
    ∀ (ms : List MatcherFn) (st : RunState), (run_matchers_trace ms st).length = ms.length := by
  intro ms
  induction ms with
  | nil => intro st; rfl
  | cons m rest ih =>
    intro st
    simp only [run_matchers_trace]
    split
    · simp
    · simp [ih]

/-- Helper: every recorded matcher input is a subset of the unmatched set
the loop started from. -/
theorem run_matchers_trace_entry_subset :
    ∀ (ms : List MatcherFn) (st : RunState) (e : Option (Finset FailureLineData)),
      e ∈ run_matchers_trace ms st →
      e = none ∨ ∃ s, e = some s ∧ s ⊆ st.unmatched := by
  intro ms
  induction ms with
  | nil =>
    intro st e he
    exact absurd he (List.not_mem_nil e)
  | cons m rest ih =>
    intro st e he
    simp only [run_matchers_trace] at he
    rcases List.mem_cons.1 he with rfl | he2
    · exact Or.inr ⟨st.unmatched, rfl, Finset.Subset.refl _⟩
    · split at he2
      · obtain ⟨x, -, hx⟩ := List.mem_map.1 he2
        exact Or.inl hx.symm
      · rcases ih _ e he2 with h | ⟨s, rfl, hsub⟩
        · exact Or.inl h
        · refine Or.inr ⟨s, rfl, Finset.Subset.trans hsub ?_⟩
          rw [foldl_process_match_unmatched]
          exact process_matches_unmatched_subset _ _

/-- C4: in one classification run, a line matched with score at or above the
good-enough ratio by the matcher at registry position i is never part of the
input of any later matcher (it is either absent from that input set, or the
loop has already stopped); and when the unmatched set is empty after matcher
i has been processed, every later matcher is skipped. -/
theorem good_enough_line_never_revisited :
    ∀ (matchers : List MatcherFn) (st : RunState) (i j : Nat), i < j →
      j < matchers.length →
      ∀ (mi : MatcherFn), matchers[i]? = some mi →
      ∀ (si : Finset FailureLineData),
        (run_matchers_trace matchers st)[i]? = some (some si) →
      (∀ m ∈ mi si, autoclassify_good_enough_ratio ≤ m.score →
        (run_matchers_trace matchers st)[j]? = some none ∨
        ∃ sj, (run_matchers_trace matchers st)[j]? = some (some sj) ∧ m.failure_line ∉ sj) ∧
      (process_matches_unmatched (mi si) si = ∅ →
        (run_matchers_trace matchers st)[j]? = some none) := by
  intro matchers
  induction matchers with
  | nil =>
    intro st i j hij hj
    exact absurd hj (Nat.not_lt_zero j)
  | cons m rest ih =>
    intro st i j hij hj mi hmi si hsi
    obtain ⟨j2, rfl⟩ : ∃ j2, j = j2 + 1 := ⟨j - 1, by omega⟩
    have hj2 : j2 < rest.length := by
      simp only [List.length_cons] at hj
      omega
    cases i with
    | zero =>
      have hmieq : mi = m := by
        rw [List.getElem?_cons_zero] at hmi
        exact (Option.some_injective _ hmi).symm
      have hsieq : si = st.unmatched := by
        simp only [run_matchers_trace, List.getElem?_cons_zero] at hsi
        exact (Option.some_injective _ (Option.some_injective _ hsi)).symm
      subst hmieq
      subst hsieq
      have hu1 : ((mi st.unmatched).foldl process_match st).unmatched =
          process_matches_unmatched (mi st.unmatched) st.unmatched :=
        foldl_process_match_unmatched _ _
      constructor
      · intro mm hmm hms
        have hnot : mm.failure_line ∉ ((mi st.unmatched).foldl process_match st).unmatched := by
          rw [hu1]
          exact process_matches_unmatched_erased _ _ _ hmm hms
        simp only [run_matchers_trace, List.getElem?_cons_succ]
        by_cases h0 : ((mi st.unmatched).foldl process_match st).unmatched = ∅
        · rw [if_pos h0]
          left
          rw [List.getElem?_map, List.getElem?_eq_getElem hj2]
          rfl
        · rw [if_neg h0]
          have hlen : j2 < (run_matchers_trace rest
              ((mi st.unmatched).foldl process_match st)).length := by
            rw [run_matchers_trace_length]
            exact hj2
          rw [List.getElem?_eq_getElem hlen]
          have hmem := List.getElem_mem hlen
          rcases run_matchers_trace_entry_subset rest _ _ hmem with he | ⟨s, he, hsub⟩
          · left
            rw [he]
          · right
            exact ⟨s, by rw [he], fun hcon => hnot (hsub hcon)⟩
      · intro hempty
        have h0 : ((mi st.unmatched).foldl process_match st).unmatched = ∅ := by
          rw [hu1]
          exact hempty
        simp only [run_matchers_trace, List.getElem?_cons_succ]
        rw [if_pos h0, List.getElem?_map, List.getElem?_eq_getElem hj2]
        rfl
    | succ i2 =>
      rw [List.getElem?_cons_succ] at hmi
      simp only [run_matchers_trace, List.getElem?_cons_succ] at hsi
      by_cases h0 : ((m st.unmatched).foldl process_match st).unmatched = ∅
      · rw [if_pos h0] at hsi
        exfalso
        rcases h : rest[i2]? with _ | r
        · rw [List.getElem?_map, h] at hsi
          exact Option.noConfusion hsi
        · rw [List.getElem?_map, h] at hsi
          exact Option.noConfusion (Option.some_injective _ hsi)
      · rw [if_neg h0] at hsi
        have hy := ih ((m st.unmatched).foldl process_match st) i2 j2 (by omega) hj2 mi hmi si hsi
        constructor
        · intro mm hmm hms
          simp only [run_matchers_trace, List.getElem?_cons_succ]
          rw [if_neg h0]
          exact hy.1 mm hmm hms
        · intro hempty
          simp only [run_matchers_trace, List.getElem?_cons_succ]
          rw [if_neg h0]
          exact hy.2 hempty

/-- C4 witness: the first matcher returns a 0.95-score match for lineC4a, so
lineC4a is absent from the input recorded for the second matcher. -/
theorem good_enough_line_never_revisited_witness :
    (0 : Nat) < 1 ∧ 1 < ([matcherHi, matcherNone] : List MatcherFn).length ∧
    ([matcherHi, matcherNone] : List MatcherFn)[0]? = some matcherHi ∧
    (run_matchers_trace [matcherHi, matcherNone] stC4)[0]? = some (some stC4.unmatched) ∧
    ((∀ m ∈ matcherHi stC4.unmatched, autoclassify_good_enough_ratio ≤ m.score →
      (run_matchers_trace [matcherHi, matcherNone] stC4)[1]? = some none ∨
      ∃ sj, (run_matchers_trace [matcherHi, matcherNone] stC4)[1]? = some (some sj) ∧
        m.failure_line ∉ sj) ∧
    (process_matches_unmatched (matcherHi stC4.unmatched) stC4.unmatched = ∅ →
      (run_matchers_trace [matcherHi, matcherNone] stC4)[1]? = some none)) := by
  have h1 : (0 : Nat) < 1 := by decide
  have h2 : 1 < ([matcherHi, matcherNone] : List MatcherFn).length := by simp
  have h3 : ([matcherHi, matcherNone] : List MatcherFn)[0]? = some matcherHi := rfl
  have h4 : (run_matchers_trace [matcherHi, matcherNone] stC4)[0]? =
      some (some stC4.unmatched) := by
    with_unfolding_all rfl
  exact ⟨h1, h2, h3, h4,
    good_enough_line_never_revisited [matcherHi, matcherNone] stC4 0 1 h1 h2
      matcherHi h3 stC4.unmatched h4⟩

